import Mathlib

/-!
Shallow embedding of the ClipySave video-downloader repository
(`clipysave.py`, `ClipySave.py`): platform classification, download
dispatch and result construction, configuration loading and dotted-key
access, download history persistence, cookie-file option injection, and
the Instagram working-directory discipline.  External engines (yt-dlp,
instaloader) are opaque collaborators and are modelled as oracle
functions supplied as parameters; everything this repository computes is
translated directly from the source.
-/

namespace ClipySave

/-! ### Platform classification (`VideoDownloader.detect_platform`) -/

/-- ASCII lowercasing of one character, as Python's `str.lower` acts on
the ASCII range of the URLs handled here. -/
def lowerChar (c : Char) : Char :=
  if 65 ≤ c.toNat && c.toNat ≤ 90 then Char.ofNat (c.toNat + 32) else c

/-- `url.lower()` applied to a character list. -/
def lowerStr (s : List Char) : List Char := s.map lowerChar

/-- If `p` is a literal prefix of `s`, return the remaining suffix. -/
def stripPref : List Char → List Char → Option (List Char)
  | [], s => some s
  | _ :: _, [] => none
  | p :: ps, c :: cs => if p = c then stripPref ps cs else none

/-- `re.search` of a literal pattern: the pattern occurs somewhere in `s`. -/
def containsSub (pat : List Char) : List Char → Bool
  | [] => (stripPref pat []).isSome
  | c :: cs => (stripPref pat (c :: cs)).isSome || containsSub pat cs

/-- The pattern occurs in `s` with no newline before its occurrence:
the region consumed by a lazy `.*?` cannot contain `\n`. -/
def afterNoNL (pat : List Char) : List Char → Bool
  | [] => (stripPref pat []).isSome
  | c :: cs => (stripPref pat (c :: cs)).isSome || ((c != '\n') && afterNoNL pat cs)

/-- `re.search` of `a.*?b` (lazy dot-star between two literals): some
position matches `a`, and `b` occurs after it with no intervening newline. -/
def searchLazy (a b : List Char) : List Char → Bool
  | [] =>
    (match stripPref a [] with
     | some rest => afterNoNL b rest
     | none => false)
  | c :: cs =>
    (match stripPref a (c :: cs) with
     | some rest => afterNoNL b rest
     | none => false) || searchLazy a b cs

/-- The two shapes of regular expression used by `detect_platform`:
a literal substring (all dots escaped in the source patterns), or two
literals separated by a lazy `.*?`. -/
inductive Pattern where
  | lit (p : List Char)
  | lazyDot (a b : List Char)

/-- `re.search(pattern, url_lower)` as a Boolean. -/
def Pattern.search : Pattern → List Char → Bool
  | .lit p, s => containsSub p s
  | .lazyDot a b, s => searchLazy a b s

/-- `youtube_patterns` from `detect_platform`. -/
def youtube_patterns : List Pattern :=
  [ .lit "youtube.com".toList,
    .lit "youtu.be".toList,
    .lit "m.youtube.com".toList,
    .lit "youtube.com/shorts/".toList,
    .lit "music.youtube.com".toList ]

/-- `instagram_patterns` from `detect_platform`. -/
def instagram_patterns : List Pattern :=
  [ .lit "instagram.com/p/".toList,
    .lit "instagram.com/reel/".toList,
    .lit "instagram.com/tv/".toList,
    .lit "instagr.am".toList ]

/-- `vk_patterns` from `detect_platform`; the second entry embeds
`vk\.com\/wall.*?z=video`. -/
def vk_patterns : List Pattern :=
  [ .lit "vk.com/video".toList,
    .lazyDot "vk.com/wall".toList "z=video".toList,
    .lit "m.vk.com/video".toList,
    .lit "vkvideo.ru/video".toList,
    .lit "vk.ru/video".toList ]

/-- The `Platform` enumeration. -/
inductive Platform where
  | youtube
  | instagram
  | vk
  | unknown
deriving DecidableEq, Repr

/-- A whole pattern family matches the lowercased URL. -/
def matches_family (ps : List Pattern) (url : String) : Bool :=
  ps.any (fun p => p.search (lowerStr url.toList))

/-- `VideoDownloader.detect_platform`: lowercase the URL, then try the
YouTube patterns, then Instagram, then VK; `unknown` when none match. -/
def detect_platform (url : String) : Platform :=
  let u := lowerStr url.toList
  if youtube_patterns.any (fun p => p.search u) then .youtube
  else if instagram_patterns.any (fun p => p.search u) then .instagram
  else if vk_patterns.any (fun p => p.search u) then .vk
  else .unknown

/-! ### Download results and the download dispatch (`VideoDownloader.download`) -/

/-- The `DownloadResult` dataclass.  File paths are strings; wall-clock
time is abstracted to a tick count (it plays no role in any claim). -/
structure DownloadResult where
  success : Bool
  platform : Platform
  url : String
  title : String := ""
  files : List String := []
  error : Option String := none
  download_time : Nat := 0
  total_size : Nat := 0
deriving DecidableEq, Repr

/-- What a successful engine invocation inside a per-platform download
body yields: the resolved title and the produced file paths. -/
structure EngineOk where
  title : String
  files : List String
deriving DecidableEq, Repr

/-- Oracles for the three per-platform `try`-block bodies (yt-dlp for
YouTube and VK, instaloader for Instagram).  `Except.error msg` models
the body raising an exception whose `str` is `msg`; the per-platform
wrappers catch it (`except Exception`) and build a failed result. -/
structure EngineEnv where
  yt : String → Except String EngineOk
  ig : String → Except String EngineOk
  vk : String → Except String EngineOk

/-- `VideoDownloader._download_youtube`: on success a successful result
with the engine's title and files (and `error` left at its `None`
default); on an exception a failed result with `error=str(e)`. -/
def download_youtube (url : String) (engine : String → Except String EngineOk) :
    DownloadResult :=
  match engine url with
  | .ok r => { success := true, platform := .youtube, url := url,
               title := r.title, files := r.files }
  | .error e => { success := false, platform := .youtube, url := url,
                  error := some e }

/-- `VideoDownloader._download_instagram` seen from `download`: the whole
body (shortcode extraction, engine call, file scan) either yields a
successful result or raises, and `except Exception` converts the latter
into a failed result with `error=str(e)`.  Its working-directory
behaviour is modelled separately below. -/
def download_instagram (url : String) (engine : String → Except String EngineOk) :
    DownloadResult :=
  match engine url with
  | .ok r => { success := true, platform := .instagram, url := url,
               title := r.title, files := r.files }
  | .error e => { success := false, platform := .instagram, url := url,
                  error := some e }

/-- `VideoDownloader._download_vk`: same shape as the YouTube wrapper. -/
def download_vk (url : String) (engine : String → Except String EngineOk) :
    DownloadResult :=
  match engine url with
  | .ok r => { success := true, platform := .vk, url := url,
               title := r.title, files := r.files }
  | .error e => { success := false, platform := .vk, url := url,
                  error := some e }

/-- The dispatch step of `VideoDownloader.download`: classify and call
the per-platform wrapper; an unknown platform yields a failed result
rather than raising. -/
def download_core (url : String) (env : EngineEnv) : DownloadResult :=
  match detect_platform url with
  | .youtube => download_youtube url env.yt
  | .instagram => download_instagram url env.ig
  | .vk => download_vk url env.vk
  | .unknown =>
      { success := false, platform := .unknown, url := url,
        error := some ("Unsupported platform: " ++ url) }

/-- `VideoDownloader.download`: dispatch, then add to `total_size` the
sizes of the produced files that still exist (`fileSize p = none`
models a path that no longer exists on disk). -/
def download (url : String) (env : EngineEnv) (fileSize : String → Option Nat) :
    DownloadResult :=
  let r := download_core url env
  { r with total_size := r.total_size + ((r.files.filterMap fileSize).sum) }

/-- `VideoDownloader.download_multiple`.  When `max_concurrent > 1` and
the configured `concurrent_downloads` is `> 1`, the results are
collected in the order the futures complete (`as_completed`), modelled
by `completion`, a permutation of the input indices; otherwise the URLs
are downloaded sequentially in input order.  `download` is total here,
so the `except` arm around `future.result()` is unreachable. -/
def download_multiple (urls : List String) (max_concurrent : Nat)
    (concurrent_downloads : Nat) (completion : List Nat)
    (env : EngineEnv) (fileSize : String → Option Nat) : List DownloadResult :=
  if max_concurrent > 1 && concurrent_downloads > 1 then
    completion.map (fun i => download (urls.getD i "") env fileSize)
  else
    urls.map (fun u => download u env fileSize)

/-! ### Metadata probe (`VideoDownloader.get_video_info`) -/

/-- The `VideoInfo` dataclass (fields beyond these are never inspected
by any claim and are carried opaquely by the engine oracles). -/
structure VideoInfo where
  platform : Platform
  url : String
  title : String
deriving DecidableEq, Repr

/-- The Python exception classes that can surface from
`get_video_info`; `lookupError`'s built-in subclasses are `keyError`
and `indexError`, while `valueError` is a sibling, not a subclass. -/
inductive PyExcClass where
  | valueError
  | lookupError
  | keyError
  | indexError
  | importError
  | connectionError
deriving DecidableEq, Repr

/-- Membership in Python's `LookupError` class hierarchy. -/
def isLookupErrorClass : PyExcClass → Bool
  | .lookupError | .keyError | .indexError => true
  | _ => false

/-- A raised Python exception: its class and its message. -/
structure PyExc where
  cls : PyExcClass
  msg : String
deriving DecidableEq, Repr

/-- Oracles for `_get_youtube_info`, `_get_instagram_info`,
`_get_vk_info`, each of which returns a `VideoInfo` or re-raises the
engine's exception. -/
structure InfoEnv where
  yt : String → Except PyExc VideoInfo
  ig : String → Except PyExc VideoInfo
  vk : String → Except PyExc VideoInfo

/-- `VideoDownloader.get_video_info`: classify and dispatch; for an
unknown platform raise `ValueError(f"Unsupported platform: {url}")`. -/
def get_video_info (url : String) (env : InfoEnv) : Except PyExc VideoInfo :=
  match detect_platform url with
  | .youtube => env.yt url
  | .instagram => env.ig url
  | .vk => env.vk url
  | .unknown => .error ⟨.valueError, "Unsupported platform: " ++ url⟩

/-! ### Configuration store (`Config`) -/

/-- A JSON value as produced by `json.load`; objects are ordered
association lists (Python dicts preserve insertion order). `null`
stands for Python's `None`. -/
inductive JValue where
  | null
  | bool (b : Bool)
  | num (n : Int)
  | str (s : String)
  | arr (items : List JValue)
  | obj (fields : List (String × JValue))

/-- First-occurrence key lookup in an object's field list
(`key in target` / `target[key]` on a dict with unique keys). -/
def lookupJ (k : String) : List (String × JValue) → Option JValue
  | [] => none
  | (k1, v1) :: rest => if k1 = k then some v1 else lookupJ k rest

/-- `target[key] = value` on a dict: replace the first binding of the
key in place, or append a new binding at the end. -/
def setKey : List (String × JValue) → String → JValue → List (String × JValue)
  | [], k, v => [(k, v)]
  | (k1, v1) :: rest, k, v =>
      if k1 = k then (k, v) :: rest else (k1, v1) :: setKey rest k v

mutual

/-- `Config._deep_update(target, source)`: process the source items in
order, folding each into the target. -/
def deep_update (target : List (String × JValue)) :
    List (String × JValue) → List (String × JValue)
  | [] => target
  | (k, v) :: rest => deep_update (merge_entry target k v) rest

/-- One iteration of the `_deep_update` loop: when the key is present
in the target with a dict value and the source value is also a dict,
recurse into the pair; otherwise the source value overwrites the
target entry wholesale. -/
def merge_entry (target : List (String × JValue)) (k : String) :
    JValue → List (String × JValue)
  | .obj sfs =>
      (match lookupJ k target with
       | some (.obj tfs) => setKey target k (.obj (deep_update tfs sfs))
       | _ => setKey target k (.obj sfs))
  | v => setKey target k v

end

/-- The key path exists in the document (each component resolves inside
an object). -/
def hasPath : JValue → List String → Bool
  | _, [] => true
  | .obj fs, k :: rest =>
      match lookupJ k fs with
      | some v => hasPath v rest
      | none => false
  | _, _ :: _ => false

/-- Pure path lookup distinguishing an explicitly stored `null`
(`some .null`) from an absent or unreachable path (`none`). -/
def storedAt : JValue → List String → Option JValue
  | v, [] => some v
  | .obj fs, k :: rest =>
      match lookupJ k fs with
      | some v => storedAt v rest
      | none => none
  | _, _ :: _ => none

/-- `Config.get(key, default)` after `key.split('.')`: walk the nested
dicts; whenever the current value is not a dict, or `value.get(k)`
yields Python `None` (the key is absent or its stored value is `None`),
return the supplied default. -/
def config_get (v : JValue) (ks : List String) (d : JValue) : JValue :=
  match ks with
  | [] => v
  | k :: rest =>
      match v with
      | .obj fs =>
          match lookupJ k fs with
          | none => d
          | some .null => d
          | some w => config_get w rest d
      | _ => d

/-- Along the given path, wherever the source document binds one of the
path's non-final components, it binds it to an object (so the deep
merge recurses there instead of overwriting the default sub-map). -/
def sourceObjAlong (ufs : List (String × JValue)) : List String → Bool
  | [] => true
  | [_] => true
  | k :: rest =>
      match lookupJ k ufs with
      | none => true
      | some (.obj vfs) => sourceObjAlong vfs rest
      | some _ => false

mutual

/-- Every object in the document has pairwise-distinct keys, as
`json.load` guarantees (duplicate keys collapse during parsing). -/
def wfFields : List (String × JValue) → Bool
  | [] => true
  | (k, v) :: rest =>
      (rest.all (fun kv => kv.1 != k)) && wfValue v && wfFields rest

/-- `wfFields` at a single value: constrains the objects inside it. -/
def wfValue : JValue → Bool
  | .obj vfs => wfFields vfs
  | _ => true

end

/-- `wfFields` lifted to the parsed persisted document. -/
def wfPersisted : Option JValue → Bool
  | some (.obj ufs) => wfFields ufs
  | _ => true

/-- `sourceObjAlong` lifted to the parsed persisted document. -/
def persistedObjAlong : Option JValue → List String → Bool
  | some (.obj ufs), p => sourceObjAlong ufs p
  | _, _ => true

/-- `Config.load_config` over the parsed content of the persisted file:
`none` models a missing file or a `json.load` failure (both return a
copy of the defaults); a parsed non-dict document makes
`_deep_update` raise, which the `except` arm also turns into the
defaults; a parsed dict is deep-merged over the defaults. -/
def load_config (dfs : List (String × JValue)) (persisted : Option JValue) : JValue :=
  match persisted with
  | some (.obj ufs) => .obj (deep_update dfs ufs)
  | _ => .obj dfs

/-- `Config.default_config`, parameterised by the two
environment-dependent leaves (`Path.home()`-based download directory
and the temp directory). -/
def default_config (home temp : String) : List (String × JValue) :=
  [ ("download_path", .str home),
    ("temp_path", .str temp),
    ("default_quality", .str "highest"),
    ("youtube", .obj
      [ ("cookies_file", .null),
        ("format", .str "bestvideo+bestaudio/best"),
        ("merge_output_format", .str "mp4"),
        ("embed_metadata", .bool true),
        ("embed_thumbnail", .bool true),
        ("subtitles", .bool false),
        ("subtitles_languages", .arr [.str "en"]) ]),
    ("instagram", .obj
      [ ("cookies_file", .null),
        ("session_file", .null),
        ("username", .null),
        ("save_metadata", .bool false),
        ("download_videos", .bool true),
        ("download_video_thumbnails", .bool false) ]),
    ("vk", .obj
      [ ("cookies_file", .null),
        ("user_agent", .str "Mozilla/5.0 (Windows NT 10.0; Win64; x64) AppleWebKit/537.36"),
        ("referer", .str "https://vk.com/"),
        ("max_quality", .str "1080p") ]),
    ("proxy", .null),
    ("retries", .num 5),
    ("timeout", .num 30),
    ("rate_limit", .null),
    ("concurrent_downloads", .num 1),
    ("output_template", .str "%(title)s_%(resolution)s.%(ext)s") ]

/-! ### Download history (`VideoDownloader.save_to_history`) -/

/-- One entry of `download_history.json`, as built in
`save_to_history`. -/
structure HistoryEntry where
  timestamp : String
  platform : Platform
  url : String
  title : String
  files : List String
  success : Bool
  error : Option String
  download_time : Nat
  total_size : Nat
deriving DecidableEq, Repr

/-- `VideoDownloader.save_to_history` acting on the persisted list:
append the new entry, then keep only the last 1000 entries
(`history[-1000:]`). -/
def save_to_history (history : List HistoryEntry) (e : HistoryEntry) :
    List HistoryEntry :=
  let h := history ++ [e]
  if h.length > 1000 then h.drop (h.length - 1000) else h

/-! ### Instagram working-directory discipline (`_download_instagram`) -/

/-- Outcome of the inner `try` body of `_download_instagram` (engine
construction, session loading, shortcode extraction, `download_post`,
file scan, sidecar cleanup): a successful result's ingredients, an
exception (any `Exception`, converted to a failed result by the outer
handler), or an interruption (`KeyboardInterrupt`, which the outer
`except Exception` does not catch). -/
inductive InstaTryOutcome where
  | ok (title : String) (files : List String)
  | exn (msg : String)
  | interrupt
deriving DecidableEq, Repr

/-- `_download_instagram` with its process-global working directory made
explicit.  `cwd0` is the working directory on entry; the body runs
after `os.chdir(output_dir)` and receives the directory it runs in; the
inner `finally` restores `original_dir` before the outer handler or the
propagation of an interrupt.  The returned pair is the outcome
(`Except.error ()` models a propagating `KeyboardInterrupt`) and the
working directory on exit. -/
def download_instagram_scoped (url output_dir : String)
    (body : String → InstaTryOutcome) (cwd0 : String) :
    Except Unit DownloadResult × String :=
  let original_dir := cwd0
  let cwd1 := output_dir
  let outcome := body cwd1
  let cwd2 := original_dir
  match outcome with
  | .ok t fs =>
      (.ok { success := true, platform := .instagram, url := url,
             title := t, files := fs }, cwd2)
  | .exn e =>
      (.ok { success := false, platform := .instagram, url := url,
             error := some e }, cwd2)
  | .interrupt => (.error (), cwd2)

/-! ### Cookie-file option injection -/

/-- The cookie guard of `_download_youtube`
(`if cookie_file and Path(cookie_file).exists()`): the configured path
must be truthy (neither `None` nor empty) and the file must exist; the
file's size is never consulted.  `stat p = some n` models an existing
file of `n` bytes, `none` a missing file. -/
def youtube_cookiefile_opt (cookie_file : Option String)
    (stat : String → Option Nat) : Option String :=
  match cookie_file with
  | some p => if p = "" then none else if (stat p).isSome then some p else none
  | none => none

/-- The identical cookie guard of `_download_vk`. -/
def vk_cookiefile_opt (cookie_file : Option String)
    (stat : String → Option Nat) : Option String :=
  match cookie_file with
  | some p => if p = "" then none else if (stat p).isSome then some p else none
  | none => none

/-- The VK cookie arguments of the standalone CLI's `download_media`
(`ClipySave.py`): `cookie.txt` is passed only when it exists and is
non-empty (`stat().st_size > 0`). -/
def download_media_vk_cookie_args (stat : String → Option Nat) : List String :=
  match stat "cookie.txt" with
  | some sz => if sz > 0 then ["--cookies", "cookie.txt"] else []
  | none => []

/-! ### Concrete oracle instances used to evaluate the model -/

/-- Engines that always raise, with a non-empty message. -/
def engineEnv0 : EngineEnv :=
  ⟨fun _ => .error "engine failure",
   fun _ => .error "engine failure",
   fun _ => .error "engine failure"⟩

/-- Engines that raise an exception whose `str` is the empty string
(e.g. `raise Exception()`). -/
def engineEnvEmptyMsg : EngineEnv :=
  ⟨fun _ => .error "", fun _ => .error "", fun _ => .error ""⟩

/-- Info engines that always raise a network error. -/
def infoEnv0 : InfoEnv :=
  ⟨fun _ => .error ⟨.connectionError, "timed out"⟩,
   fun _ => .error ⟨.connectionError, "timed out"⟩,
   fun _ => .error ⟨.connectionError, "timed out"⟩⟩

/-- A file system on which no path exists. -/
def fileSize0 : String → Option Nat := fun _ => none

/-- A sample history entry. -/
def entry0 : HistoryEntry :=
  ⟨"2026-01-01T00:00:00", .youtube, "https://youtu.be/a", "a", [], true, none, 3, 1024⟩

/-- A persisted configuration document that nests a mapping under
`youtube`, as a well-behaved user file would. -/
def persisted0 : Option JValue :=
  some (.obj [("youtube", .obj [("format", .str "best")]), ("retries", .num 3)])

/-- A persisted configuration document that binds the `youtube` key to
a number where the defaults hold a sub-map. -/
def persisted1 : Option JValue := some (.obj [("youtube", JValue.num 5)])

/-! ## Theorems -/

/-- C7: `detect_platform` gives the YouTube family first-match
priority — any URL matching a YouTube pattern classifies as YouTube and
never as Instagram or VK, whatever else occurs in the string — and it
returns `unknown` exactly when none of the three families matches. -/
theorem detect_platform_first_match (url : String) :
    (matches_family youtube_patterns url = true → detect_platform url = .youtube) ∧
    (matches_family youtube_patterns url = true →
      detect_platform url ≠ .instagram ∧ detect_platform url ≠ .vk) ∧
    (detect_platform url = .unknown ↔
      matches_family youtube_patterns url = false ∧
      matches_family instagram_patterns url = false ∧
      matches_family vk_patterns url = false) := by
  have he : detect_platform url =
      (if matches_family youtube_patterns url then Platform.youtube
       else if matches_family instagram_patterns url then Platform.instagram
       else if matches_family vk_patterns url then Platform.vk
       else Platform.unknown) := rfl
  rw [he]
  cases hy : matches_family youtube_patterns url <;>
    cases hi : matches_family instagram_patterns url <;>
      cases hv : matches_family vk_patterns url <;> simp

/-- C7 witness: a URL that matches both the YouTube and the Instagram
families still classifies as YouTube. -/
theorem detect_platform_first_match_w :
    matches_family youtube_patterns "https://youtu.be/a?next=instagram.com/p/b" = true ∧
    matches_family instagram_patterns "https://youtu.be/a?next=instagram.com/p/b" = true ∧
    detect_platform "https://youtu.be/a?next=instagram.com/p/b" = .youtube :=
  ⟨by decide, by decide,
   (detect_platform_first_match "https://youtu.be/a?next=instagram.com/p/b").1 (by decide)⟩

/-- C2: for a URL classifying as `unknown`, `download` returns (it is a
total function of the oracles, so no exception escapes) a failed result
whose platform is `unknown` and whose error is the non-empty message
`"Unsupported platform: <url>"`. -/
theorem download_unknown_failure (url : String) (env : EngineEnv)
    (fileSize : String → Option Nat) (h : detect_platform url = .unknown) :
    (download url env fileSize).success = false ∧
    (download url env fileSize).platform = .unknown ∧
    (download url env fileSize).error = some ("Unsupported platform: " ++ url) ∧
    ("Unsupported platform: " ++ url) ≠ "" := by
  refine ⟨by simp [download, download_core, h], by simp [download, download_core, h],
    by simp [download, download_core, h], ?_⟩
  intro hc
  have h1 : "Unsupported platform: ".length + url.length = 0 := by
    rw [← String.length_append, hc]
    rfl
  have h2 : "Unsupported platform: ".length = 22 := rfl
  omega

/-- C2 witness at a concrete unclassifiable URL. -/
theorem download_unknown_failure_w :
    detect_platform "https://example.com/x" = .unknown ∧
    ((download "https://example.com/x" engineEnv0 fileSize0).success = false ∧
     (download "https://example.com/x" engineEnv0 fileSize0).platform = .unknown ∧
     (download "https://example.com/x" engineEnv0 fileSize0).error =
       some ("Unsupported platform: " ++ "https://example.com/x") ∧
     ("Unsupported platform: " ++ "https://example.com/x") ≠ "") :=
  ⟨by decide, download_unknown_failure "https://example.com/x" engineEnv0 fileSize0 (by decide)⟩

/-- C3 counterexample: on an unknown-platform URL, `get_video_info`
raises `ValueError`, and `ValueError` is not in Python's `LookupError`
class hierarchy — the claim that the failure is a `LookupError`-class
condition is false on the code. -/
theorem get_video_info_raises_valueerror :
    get_video_info "https://example.com/x" infoEnv0 =
      .error ⟨.valueError, "Unsupported platform: https://example.com/x"⟩ ∧
    isLookupErrorClass .valueError = false := by
  exact ⟨rfl, rfl⟩

/-- C3 (amended): for every URL classifying as `unknown`,
`get_video_info` does not return a `VideoInfo` but raises — specifically
a `ValueError` (not a `LookupError`-class error) carrying the message
`"Unsupported platform: <url>"`. -/
theorem get_video_info_unknown (url : String) (env : InfoEnv)
    (h : detect_platform url = .unknown) :
    get_video_info url env = .error ⟨.valueError, "Unsupported platform: " ++ url⟩ ∧
    isLookupErrorClass PyExcClass.valueError = false :=
  ⟨by simp [get_video_info, h], rfl⟩

/-- C3 witness at a concrete unclassifiable URL. -/
theorem get_video_info_unknown_w :
    detect_platform "https://foo.example.org/clip" = .unknown ∧
    (get_video_info "https://foo.example.org/clip" infoEnv0 =
      .error ⟨.valueError, "Unsupported platform: " ++ "https://foo.example.org/clip"⟩ ∧
     isLookupErrorClass PyExcClass.valueError = false) :=
  ⟨by decide, get_video_info_unknown "https://foo.example.org/clip" infoEnv0 (by decide)⟩

/-- C8 counterexample: in the library downloaders the configured cookie
file is injected as soon as the path is truthy and the file exists —
an existing but empty (zero-byte) cookie file is still injected, both
for YouTube and for VK. -/
theorem cookiefile_empty_file_injected :
    youtube_cookiefile_opt (some "cookies.txt") (fun _ => some 0) = some "cookies.txt" ∧
    vk_cookiefile_opt (some "cookies.txt") (fun _ => some 0) = some "cookies.txt" := by
  exact ⟨rfl, rfl⟩

/-- C8 (amended): the library's YouTube and VK option builders inject
the configured cookie file whenever the path is truthy and the file
exists, regardless of its size, and omit it when the path is absent or
the file is missing; only the standalone CLI's VK branch
(`download_media`) additionally requires the file to be non-empty. -/
theorem cookiefile_injection (p : String) (stat : String → Option Nat)
    (hp : p ≠ "") :
    ((stat p).isSome = true → youtube_cookiefile_opt (some p) stat = some p ∧
      vk_cookiefile_opt (some p) stat = some p) ∧
    (stat p = none → youtube_cookiefile_opt (some p) stat = none ∧
      vk_cookiefile_opt (some p) stat = none) ∧
    youtube_cookiefile_opt none stat = none ∧
    vk_cookiefile_opt none stat = none ∧
    (∀ sz, stat "cookie.txt" = some sz →
      (download_media_vk_cookie_args stat = ["--cookies", "cookie.txt"] ↔ 0 < sz)) ∧
    (stat "cookie.txt" = none → download_media_vk_cookie_args stat = []) := by
  refine ⟨?_, ?_, rfl, rfl, ?_, ?_⟩
  · intro hs
    constructor <;> simp [youtube_cookiefile_opt, vk_cookiefile_opt, hp, hs]
  · intro hs
    constructor <;> simp [youtube_cookiefile_opt, vk_cookiefile_opt, hp, hs]
  · intro sz hs
    constructor
    · intro hargs
      by_contra hz
      simp [download_media_vk_cookie_args, hs, Nat.eq_zero_of_not_pos hz] at hargs
    · intro hpos
      simp [download_media_vk_cookie_args, hs, hpos]
  · intro hs
    simp [download_media_vk_cookie_args, hs]

/-- C8 witness: with an existing zero-byte cookie file the library
injects it while the CLI omits it. -/
theorem cookiefile_injection_w :
    ("c.txt" : String) ≠ "" ∧
    youtube_cookiefile_opt (some "c.txt") (fun _ => some 0) = some "c.txt" ∧
    download_media_vk_cookie_args (fun _ => some 0) = [] := by
  refine ⟨by decide, ?_, ?_⟩
  · exact (((cookiefile_injection "c.txt" (fun _ => some 0) (by decide)).1) rfl).1
  · have h := ((cookiefile_injection "c.txt" (fun _ => some 0) (by decide)).2.2.2.2.1) 0 rfl
    cases hargs : download_media_vk_cookie_args (fun _ => some 0) with
    | nil => rfl
    | cons a l =>
      exfalso
      have := h.mp
      rw [hargs] at this
      simp [download_media_vk_cookie_args] at hargs

/-- C9: `_download_instagram` runs the engine body in the target output
directory and restores the caller's working directory unconditionally —
after a successful body, after an exception converted to a failed
result, and after a propagating interruption — and the body observes
exactly the output directory as its working directory. -/
theorem download_instagram_scoped_restores (url output_dir : String)
    (body : String → InstaTryOutcome) (cwd0 : String) :
    (download_instagram_scoped url output_dir body cwd0).2 = cwd0 ∧
    download_instagram_scoped url output_dir body cwd0 =
      download_instagram_scoped url output_dir (fun _ => body output_dir) cwd0 := by
  constructor
  · cases h : body output_dir <;> simp [download_instagram_scoped, h]
  · rfl

/-- C10: `Config.get` returns the supplied default whenever the walk to
the dotted key fails — a component is missing, an intermediate value is
not a mapping, or the value reached is an explicitly stored `null` —
so a key set to `None` is indistinguishable through `get` from an
absent key (both cases yield the default).  The key list is the result
of `key.split('.')`, hence never empty. -/
theorem config_get_default_on_none (v : JValue) (ks : List String) (d : JValue)
    (hks : ks ≠ [])
    (h : storedAt v ks = none ∨ storedAt v ks = some JValue.null) :
    config_get v ks d = d := by
  induction ks generalizing v with
  | nil => exact absurd rfl hks
  | cons k rest ih =>
    cases v with
    | obj fs =>
      cases hl : lookupJ k fs with
      | none => simp [config_get, hl]
      | some w =>
        have hst : storedAt (JValue.obj fs) (k :: rest) = storedAt w rest := by
          simp [storedAt, hl]
        rw [hst] at h
        cases w with
        | null => simp [config_get, hl]
        | bool b =>
          cases rest with
          | nil => simp [storedAt] at h
          | cons r rs => simp [config_get, hl]
        | num n =>
          cases rest with
          | nil => simp [storedAt] at h
          | cons r rs => simp [config_get, hl]
        | str s =>
          cases rest with
          | nil => simp [storedAt] at h
          | cons r rs => simp [config_get, hl]
        | arr items =>
          cases rest with
          | nil => simp [storedAt] at h
          | cons r rs => simp [config_get, hl]
        | obj gs =>
          cases rest with
          | nil => simp [storedAt] at h
          | cons r rs =>
            simp only [config_get, hl]
            exact ih _ (by simp) h
    | null => rfl
    | bool b => rfl
    | num n => rfl
    | str s => rfl
    | arr items => rfl

/-- C10 witness: a key stored as `null` yields the default, exactly as
an absent key does. -/
theorem config_get_default_on_none_w :
    (["a"] : List String) ≠ [] ∧
    config_get (.obj [("a", JValue.null)]) ["a"] (.num 7) = .num 7 ∧
    config_get (.obj [("b", JValue.num 1)]) ["a"] (.num 7) = .num 7 :=
  ⟨by simp,
   config_get_default_on_none (.obj [("a", JValue.null)]) ["a"] (.num 7)
     (by simp) (Or.inr rfl),
   config_get_default_on_none (.obj [("b", JValue.num 1)]) ["a"] (.num 7)
     (by simp) (Or.inl rfl)⟩

/-- The YouTube wrapper echoes the requested URL in its result. -/
theorem download_youtube_url (u : String) (eng : String → Except String EngineOk) :
    (download_youtube u eng).url = u := by
  unfold download_youtube
  cases eng u <;> rfl

/-- The Instagram wrapper echoes the requested URL in its result. -/
theorem download_instagram_url (u : String) (eng : String → Except String EngineOk) :
    (download_instagram u eng).url = u := by
  unfold download_instagram
  cases eng u <;> rfl

/-- The VK wrapper echoes the requested URL in its result. -/
theorem download_vk_url (u : String) (eng : String → Except String EngineOk) :
    (download_vk u eng).url = u := by
  unfold download_vk
  cases eng u <;> rfl

/-- `download` echoes the requested URL in its result. -/
theorem download_url_eq (u : String) (env : EngineEnv) (fs : String → Option Nat) :
    (download u env fs).url = u := by
  have h1 : (download u env fs).url = (download_core u env).url := rfl
  rw [h1]
  unfold download_core
  cases hd : detect_platform u <;>
    simp [hd, download_youtube_url, download_instagram_url, download_vk_url]

/-- Reading a list back at the indices `0, …, length-1` reproduces it. -/
theorem map_getD_range (l : List α) (d : α) :
    (List.range l.length).map (fun i => l.getD i d) = l := by
  induction l with
  | nil => simp
  | cons a t ih =>
    rw [List.length_cons, List.range_succ_eq_map, List.map_cons, List.map_map]
    have htail : List.map ((fun i => (a :: t).getD i d) ∘ Nat.succ)
        (List.range t.length) = t := by
      have hfun : ∀ i ∈ List.range t.length,
          ((fun i => (a :: t).getD i d) ∘ Nat.succ) i = (fun i => t.getD i d) i :=
        fun i _ => by simp
      rw [List.map_congr_left hfun, ih]
    rw [htail]
    rfl

/-- C1 counterexample: with concurrency enabled and completion order
`[1, 0]`, `download_multiple` returns the results in completion order,
so the first element of the returned list carries the second input URL —
the claimed restoration of input order does not happen. -/
theorem download_multiple_completion_order :
    (download_multiple ["u1", "u2"] 2 2 [1, 0] engineEnv0 fileSize0).map
        (fun r => r.url) = ["u2", "u1"] ∧
    (["u2", "u1"] : List String) ≠ ["u1", "u2"] := by
  exact ⟨rfl, by decide⟩

/-- C1 (amended): `download_multiple` always returns exactly one result
per input URL, and its result URLs are a permutation of the inputs; in
the sequential case (`max_concurrent ≤ 1` or configured
`concurrent_downloads ≤ 1`) the i-th result's URL equals the i-th input
URL, but in the concurrent case the results appear in the completion
order of the futures, not re-sorted to input order. -/
theorem download_multiple_shape (urls : List String) (mc cc : Nat)
    (completion : List Nat) (env : EngineEnv) (fs : String → Option Nat)
    (hperm : completion.Perm (List.range urls.length)) :
    (download_multiple urls mc cc completion env fs).length = urls.length ∧
    ((download_multiple urls mc cc completion env fs).map (fun r => r.url)).Perm urls ∧
    (mc ≤ 1 ∨ cc ≤ 1 →
      (download_multiple urls mc cc completion env fs).map (fun r => r.url) = urls) ∧
    (1 < mc → 1 < cc →
      (download_multiple urls mc cc completion env fs).map (fun r => r.url) =
        completion.map (fun i => urls.getD i "")) := by
  by_cases hb : (mc > 1 && cc > 1) = true
  · have hmap : (download_multiple urls mc cc completion env fs).map (fun r => r.url) =
        completion.map (fun i => urls.getD i "") := by
      unfold download_multiple
      rw [if_pos hb, List.map_map]
      exact List.map_congr_left (fun i _ => download_url_eq (urls.getD i "") env fs)
    have hperm2 : ((download_multiple urls mc cc completion env fs).map
        (fun r => r.url)).Perm urls := by
      rw [hmap]
      have := hperm.map (fun i => urls.getD i "")
      rwa [map_getD_range] at this
    refine ⟨?_, hperm2, ?_, fun _ _ => hmap⟩
    · have := hperm2.length_eq
      rwa [List.length_map] at this
    · intro hseq
      simp only [Bool.and_eq_true, decide_eq_true_eq] at hb
      omega
  · have hmap : (download_multiple urls mc cc completion env fs).map (fun r => r.url) =
        urls := by
      unfold download_multiple
      rw [if_neg hb, List.map_map]
      have h1 : ∀ u ∈ urls,
          ((fun r => DownloadResult.url r) ∘ fun u => download u env fs) u = id u :=
        fun u _ => download_url_eq u env fs
      rw [List.map_congr_left h1, List.map_id]
    refine ⟨?_, by rw [hmap], fun _ => hmap, ?_⟩
    · unfold download_multiple
      rw [if_neg hb, List.length_map]
    · intro h1 h2
      exact absurd (by simp only [Bool.and_eq_true, decide_eq_true_eq]; omega) hb

/-- C1 witness: two unknown-platform URLs with completion order `[1, 0]`. -/
theorem download_multiple_shape_w :
    ([1, 0] : List Nat).Perm (List.range (["u1", "u2"] : List String).length) ∧
    ((download_multiple ["u1", "u2"] 2 2 [1, 0] engineEnv0 fileSize0).length =
        (["u1", "u2"] : List String).length ∧
     ((download_multiple ["u1", "u2"] 2 2 [1, 0] engineEnv0 fileSize0).map
        (fun r => r.url)).Perm ["u1", "u2"] ∧
     ((2 : Nat) ≤ 1 ∨ (2 : Nat) ≤ 1 →
       (download_multiple ["u1", "u2"] 2 2 [1, 0] engineEnv0 fileSize0).map
          (fun r => r.url) = ["u1", "u2"]) ∧
     (1 < 2 → 1 < 2 →
       (download_multiple ["u1", "u2"] 2 2 [1, 0] engineEnv0 fileSize0).map
          (fun r => r.url) = [1, 0].map (fun i => (["u1", "u2"] : List String).getD i ""))) :=
  ⟨by decide, download_multiple_shape ["u1", "u2"] 2 2 [1, 0] engineEnv0 fileSize0 (by decide)⟩

/-- C4 counterexample: when the engine raises an exception whose string
message is empty, the failed result's error is `Some ""` — present but
empty, so a failed `DownloadResult` does not always carry a non-empty
error. -/
theorem download_failure_empty_error :
    (download "https://youtube.com/watch?v=abc" engineEnvEmptyMsg fileSize0).success
        = false ∧
    (download "https://youtube.com/watch?v=abc" engineEnvEmptyMsg fileSize0).error
        = some "" := by
  exact ⟨rfl, rfl⟩

/-- C4 (amended): a successful `download` result always has
`error = none`; a failed one always carries `error = some msg` with
`msg` the engine's message — non-empty only when the engine's message
is (the unknown-platform message always is). -/
theorem download_error_discipline (url : String) (env : EngineEnv)
    (fs : String → Option Nat) :
    ((download url env fs).success = true → (download url env fs).error = none) ∧
    ((download url env fs).success = false →
      ∃ e, (download url env fs).error = some e) ∧
    (detect_platform url = .unknown →
      (download url env fs).error = some ("Unsupported platform: " ++ url) ∧
      ("Unsupported platform: " ++ url) ≠ "") := by
  have hse : (download url env fs).success = (download_core url env).success := rfl
  have hee : (download url env fs).error = (download_core url env).error := rfl
  have hcore : ((download_core url env).success = true ∧
        (download_core url env).error = none) ∨
      ((download_core url env).success = false ∧
        ∃ e, (download_core url env).error = some e) := by
    unfold download_core
    cases detect_platform url
    · unfold download_youtube
      cases env.yt url with
      | ok r => exact Or.inl ⟨rfl, rfl⟩
      | error e => exact Or.inr ⟨rfl, e, rfl⟩
    · unfold download_instagram
      cases env.ig url with
      | ok r => exact Or.inl ⟨rfl, rfl⟩
      | error e => exact Or.inr ⟨rfl, e, rfl⟩
    · unfold download_vk
      cases env.vk url with
      | ok r => exact Or.inl ⟨rfl, rfl⟩
      | error e => exact Or.inr ⟨rfl, e, rfl⟩
    · exact Or.inr ⟨rfl, "Unsupported platform: " ++ url, rfl⟩
  refine ⟨?_, ?_, ?_⟩
  · intro hs
    rw [hse] at hs
    rw [hee]
    rcases hcore with ⟨_, h2⟩ | ⟨h1, _⟩
    · exact h2
    · rw [h1] at hs
      cases hs
  · intro hs
    rw [hse] at hs
    rw [hee]
    rcases hcore with ⟨h1, _⟩ | ⟨_, h2⟩
    · rw [h1] at hs
      cases hs
    · exact h2
  · intro hd
    constructor
    · simp [download, download_core, hd]
    · intro hc
      have h1 : "Unsupported platform: ".length + url.length = 0 := by
        rw [← String.length_append, hc]
        rfl
      have h2 : "Unsupported platform: ".length = 22 := rfl
      omega

/-- C4 witness: a failing YouTube download carries some error message,
and a failing unknown-platform download carries the non-empty one. -/
theorem download_error_discipline_w :
    (download "https://youtube.com/watch?v=abc" engineEnv0 fileSize0).success = false ∧
    (∃ e, (download "https://youtube.com/watch?v=abc" engineEnv0 fileSize0).error
        = some e) :=
  ⟨rfl, (download_error_discipline "https://youtube.com/watch?v=abc" engineEnv0
      fileSize0).2.1 rfl⟩

/-- One append leaves `min (n + 1) 1000` entries. -/
theorem save_to_history_length (h : List HistoryEntry) (e : HistoryEntry) :
    (save_to_history h e).length = min (h.length + 1) 1000 := by
  unfold save_to_history
  by_cases hc : (h ++ [e]).length > 1000
  · rw [if_pos hc, List.length_drop]
    simp only [List.length_append, List.length_singleton] at hc ⊢
    omega
  · rw [if_neg hc]
    simp only [List.length_append, List.length_singleton] at hc ⊢
    omega

/-- One append yields a suffix of the history-plus-new-entry list. -/
theorem save_to_history_suffix (h : List HistoryEntry) (e : HistoryEntry) :
    save_to_history h e <:+ h ++ [e] := by
  unfold save_to_history
  by_cases hc : (h ++ [e]).length > 1000
  · rw [if_pos hc]
    exact List.drop_suffix _ _
  · rw [if_neg hc]

/-- The history is never empty after an append. -/
theorem save_to_history_ne_nil (h : List HistoryEntry) (e : HistoryEntry) :
    save_to_history h e ≠ [] := by
  intro hc
  have hl := save_to_history_length h e
  rw [hc] at hl
  simp only [List.length_nil] at hl
  omega

/-- One append puts the new entry last. -/
theorem save_to_history_getLast (h : List HistoryEntry) (e : HistoryEntry) :
    (save_to_history h e).getLast? = some e := by
  obtain ⟨pre, hpre⟩ := save_to_history_suffix h e
  have h1 : (pre ++ save_to_history h e).getLast? = (save_to_history h e).getLast? :=
    List.getLast?_append_of_ne_nil pre (save_to_history_ne_nil h e)
  rw [hpre] at h1
  rw [← h1, List.getLast?_append_of_ne_nil h (by simp)]
  rfl

/-- Any run of appends yields a suffix of the initial history followed
by the appended entries, in order. -/
theorem foldl_save_suffix (es : List HistoryEntry) (h : List HistoryEntry) :
    es.foldl save_to_history h <:+ h ++ es := by
  induction es generalizing h with
  | nil => simp
  | cons e rest ih =>
    have h1 : rest.foldl save_to_history (save_to_history h e) <:+
        save_to_history h e ++ rest := ih (save_to_history h e)
    have h2 : save_to_history h e ++ rest <:+ (h ++ [e]) ++ rest := by
      obtain ⟨pre, hpre⟩ := save_to_history_suffix h e
      exact ⟨pre, by rw [← List.append_assoc, hpre]⟩
    have h3 := h1.trans h2
    rw [List.append_assoc, List.singleton_append] at h3
    exact h3

/-- After at least one append the history holds at most 1000 entries,
whatever the length of the list read back from disk. -/
theorem foldl_save_length (es : List HistoryEntry) (h : List HistoryEntry)
    (hne : es ≠ []) : (es.foldl save_to_history h).length ≤ 1000 := by
  induction es generalizing h with
  | nil => exact absurd rfl hne
  | cons e rest ih =>
    cases rest with
    | nil =>
      simp only [List.foldl]
      have := save_to_history_length h e
      omega
    | cons e2 r2 => exact ih (save_to_history h e) (by simp)

/-- The last entry after a run of appends is the last entry appended. -/
theorem foldl_save_getLast (es : List HistoryEntry) (h : List HistoryEntry)
    (hne : es ≠ []) :
    (es.foldl save_to_history h).getLast? = es.getLast? := by
  induction es generalizing h with
  | nil => exact absurd rfl hne
  | cons e rest ih =>
    cases rest with
    | nil =>
      simp only [List.foldl]
      rw [save_to_history_getLast]
      rfl
    | cons e2 r2 =>
      rw [List.foldl_cons, ih (save_to_history h e) (by simp),
        List.getLast?_cons_cons]

/-- C6: after any non-empty sequence of `save_to_history` appends the
persisted history holds at most 1000 entries, the newest entry is last,
and the result is a suffix of the original history followed by the
appended entries — so only the oldest entries are dropped (FIFO). -/
theorem save_to_history_fifo_cap (h es : List HistoryEntry) (hne : es ≠ []) :
    (es.foldl save_to_history h).length ≤ 1000 ∧
    (es.foldl save_to_history h).getLast? = es.getLast? ∧
    es.foldl save_to_history h <:+ h ++ es :=
  ⟨foldl_save_length es h hne, foldl_save_getLast es h hne, foldl_save_suffix es h⟩

/-- C6 witness: one append to an empty history. -/
theorem save_to_history_fifo_cap_w :
    ([entry0] : List HistoryEntry) ≠ [] ∧
    (([entry0].foldl save_to_history []).length ≤ 1000 ∧
     ([entry0].foldl save_to_history []).getLast? = [entry0].getLast? ∧
     [entry0].foldl save_to_history [] <:+ ([] : List HistoryEntry) ++ [entry0]) :=
  ⟨by simp, save_to_history_fifo_cap [] [entry0] (by simp)⟩

/-- Setting a key makes it the first binding found. -/
theorem lookupJ_setKey_self (fs : List (String × JValue)) (k : String) (v : JValue) :
    lookupJ k (setKey fs k v) = some v := by
  induction fs with
  | nil => simp [setKey, lookupJ]
  | cons kv rest ih =>
    obtain ⟨k1, v1⟩ := kv
    by_cases h : k1 = k
    · subst h
      simp [setKey, lookupJ]
    · simp [setKey, lookupJ, h, ih]

/-- Setting one key leaves the lookup of a different key unchanged. -/
theorem lookupJ_setKey_ne (fs : List (String × JValue)) (k k1 : String) (v : JValue)
    (h : k1 ≠ k) : lookupJ k (setKey fs k1 v) = lookupJ k fs := by
  induction fs with
  | nil => simp [setKey, lookupJ, h]
  | cons kv rest ih =>
    obtain ⟨k2, v2⟩ := kv
    by_cases h2 : k2 = k1
    · subst h2
      simp [setKey, lookupJ, h]
    · by_cases h3 : k2 = k
      · subst h3
        simp [setKey, lookupJ, h2]
      · simp [setKey, lookupJ, h2, h3, ih]

/-- A key different from every key of the list is not found in it. -/
theorem all_keys_ne_lookupJ (rest : List (String × JValue)) (k : String)
    (h : rest.all (fun kv => kv.1 != k) = true) : lookupJ k rest = none := by
  induction rest with
  | nil => rfl
  | cons kv r ih =>
    obtain ⟨k1, v1⟩ := kv
    simp only [List.all_cons, Bool.and_eq_true, bne_iff_ne] at h
    simp only [lookupJ, if_neg h.1]
    exact ih h.2

/-- Each `_deep_update` iteration only rewrites the processed key. -/
theorem merge_entry_eq_setKey (t : List (String × JValue)) (k : String) (v : JValue) :
    ∃ X, merge_entry t k v = setKey t k X := by
  cases v with
  | obj sfs =>
    simp only [merge_entry]
    cases hl : lookupJ k t with
    | none => exact ⟨.obj sfs, rfl⟩
    | some w =>
      cases w with
      | obj tfs => exact ⟨.obj (deep_update tfs sfs), rfl⟩
      | null => exact ⟨.obj sfs, rfl⟩
      | bool b => exact ⟨.obj sfs, rfl⟩
      | num n => exact ⟨.obj sfs, rfl⟩
      | str s2 => exact ⟨.obj sfs, rfl⟩
      | arr its => exact ⟨.obj sfs, rfl⟩
  | null => exact ⟨.null, rfl⟩
  | bool b => exact ⟨.bool b, rfl⟩
  | num n => exact ⟨.num n, rfl⟩
  | str s2 => exact ⟨.str s2, rfl⟩
  | arr its => exact ⟨.arr its, rfl⟩

/-- Deep-merging a duplicate-free source document over a target keeps
every target key path along which the source only ever binds objects
at the non-final components. -/
theorem deep_update_hasPath (p : List String) :
    ∀ (s t : List (String × JValue)), wfFields s = true →
      hasPath (.obj t) p = true → sourceObjAlong s p = true →
      hasPath (.obj (deep_update t s)) p = true := by
  induction p with
  | nil =>
    intro s t _ _ _
    rfl
  | cons k krest ihp =>
    intro s
    induction s with
    | nil =>
      intro t _ ht _
      exact ht
    | cons kv rest ihs =>
      obtain ⟨k1, v1⟩ := kv
      intro t hwf ht hsrc
      rw [wfFields] at hwf
      simp only [Bool.and_eq_true] at hwf
      obtain ⟨⟨hnotin, hwfv1⟩, hwfrest⟩ := hwf
      have hlt : ∃ w, lookupJ k t = some w ∧ hasPath w krest = true := by
        revert ht
        simp only [hasPath]
        cases hl : lookupJ k t with
        | none =>
          intro ht
          exact absurd ht (by simp)
        | some w =>
          intro ht
          exact ⟨w, rfl, ht⟩
      obtain ⟨w, hlw, hpw⟩ := hlt
      simp only [deep_update]
      refine ihs (merge_entry t k1 v1) hwfrest ?_ ?_
      · -- the merged target still carries the path
        by_cases hkk : k1 = k
        · subst hkk
          cases krest with
          | nil =>
            obtain ⟨X, hX⟩ := merge_entry_eq_setKey t k1 v1
            rw [hX]
            simp [hasPath, lookupJ_setKey_self]
          | cons k2 kr2 =>
            have hv1 : ∃ vfs, v1 = .obj vfs ∧ sourceObjAlong vfs (k2 :: kr2) = true := by
              revert hsrc
              cases v1 with
              | obj vfs =>
                intro hsrc
                refine ⟨vfs, rfl, ?_⟩
                simpa [sourceObjAlong, lookupJ] using hsrc
              | null => intro hsrc; simp [sourceObjAlong, lookupJ] at hsrc
              | bool b => intro hsrc; simp [sourceObjAlong, lookupJ] at hsrc
              | num n => intro hsrc; simp [sourceObjAlong, lookupJ] at hsrc
              | str s2 => intro hsrc; simp [sourceObjAlong, lookupJ] at hsrc
              | arr its => intro hsrc; simp [sourceObjAlong, lookupJ] at hsrc
            obtain ⟨vfs, rfl, hsrcv⟩ := hv1
            have hwfvfs : wfFields vfs = true := hwfv1
            cases w with
            | obj tfs =>
              have hme : merge_entry t k1 (.obj vfs) =
                  setKey t k1 (.obj (deep_update tfs vfs)) := by
                simp only [merge_entry, hlw]
              rw [hme]
              simp only [hasPath, lookupJ_setKey_self]
              exact ihp vfs tfs hwfvfs hpw hsrcv
            | null => exact absurd hpw (by simp [hasPath])
            | bool b => exact absurd hpw (by simp [hasPath])
            | num n => exact absurd hpw (by simp [hasPath])
            | str s2 => exact absurd hpw (by simp [hasPath])
            | arr its => exact absurd hpw (by simp [hasPath])
        · obtain ⟨X, hX⟩ := merge_entry_eq_setKey t k1 v1
          rw [hX]
          simp only [hasPath]
          rw [lookupJ_setKey_ne t k k1 X hkk, hlw]
          exact hpw
      · -- the source condition carries over to the remaining items
        cases krest with
        | nil => rfl
        | cons k2 kr2 =>
          by_cases hkk : k1 = k
          · subst hkk
            have hnone : lookupJ k1 rest = none := all_keys_ne_lookupJ rest k1 hnotin
            simp [sourceObjAlong, hnone]
          · have hstep : lookupJ k ((k1, v1) :: rest) = lookupJ k rest := by
              simp [lookupJ, hkk]
            simp only [sourceObjAlong] at hsrc ⊢
            rw [hstep] at hsrc
            exact hsrc

/-- C5 counterexample: with the persisted document `{"youtube": 5}` the
deep merge replaces the whole default `youtube` sub-map by `5`, so the
default key path `youtube.cookies_file` is missing after
`load_config` — the configuration does not contain every default key
for every persisted document. -/
theorem load_config_loses_nested_default :
    hasPath (.obj (default_config "HOME" "TMP")) ["youtube", "cookies_file"] = true ∧
    hasPath (load_config (default_config "HOME" "TMP") persisted1)
      ["youtube", "cookies_file"] = false := by
  constructor
  · decide
  · decide

/-- C5 (amended): after `load_config`, the configuration contains every
default key path along which the persisted document (duplicate-free, as
`json.load` produces) never binds a non-mapping value at a non-final
component; in particular all top-level default keys survive.  When the
persisted document binds a non-mapping value where the defaults hold a
sub-map, that value replaces the whole sub-map and the nested default
keys are lost. -/
theorem load_config_keeps_default_paths (dfs : List (String × JValue))
    (persisted : Option JValue) (p : List String)
    (hwf : wfPersisted persisted = true)
    (hd : hasPath (.obj dfs) p = true)
    (hok : persistedObjAlong persisted p = true) :
    hasPath (load_config dfs persisted) p = true := by
  cases persisted with
  | none => exact hd
  | some u =>
    cases u with
    | obj ufs => exact deep_update_hasPath p ufs dfs hwf hd hok
    | null => exact hd
    | bool b => exact hd
    | num n => exact hd
    | str s2 => exact hd
    | arr its => exact hd

/-- C5 witness: a persisted document nesting a mapping under `youtube`
keeps the default `youtube.cookies_file` key after the merge. -/
theorem load_config_keeps_default_paths_w :
    wfPersisted persisted0 = true ∧
    hasPath (.obj (default_config "HOME" "TMP")) ["youtube", "cookies_file"] = true ∧
    persistedObjAlong persisted0 ["youtube", "cookies_file"] = true ∧
    hasPath (load_config (default_config "HOME" "TMP") persisted0)
      ["youtube", "cookies_file"] = true :=
  ⟨by decide, by decide, by decide,
   load_config_keeps_default_paths (default_config "HOME" "TMP") persisted0
     ["youtube", "cookies_file"] (by decide) (by decide) (by decide)⟩

end ClipySave
